import Mathlib

/-!
# Verification of the FoodSales ingestion pipeline

Shallow embedding of `ingest/ingest_foodsales.py`: an Excel → Postgres batch
ingestion consisting of an extractor/validator (`read_foodsales`), idempotent
schema DDL (`ensure_schema_and_tables`), a staged bulk load (`load_stage`),
a duplicate-safe merge (`merge_stage_to_prod`) and the orchestrating `main`,
all database work inside a single transaction (`eng.begin()` semantics:
commit on success, full rollback on any exception).

Modelling conventions:
* A spreadsheet cell is `Option` of a base value; `none` is a blank/NaN cell.
* Dates are abstracted to `Nat` (the pandas `to_datetime(..., errors="coerce")`
  call of the external library is modelled as the cell already carrying either
  a parsed date or `none`).
* `numeric(18,2)` decimals are modelled as `ℚ`, `integer` as `ℤ`.
* Python `str.strip()` is modelled by `strip`, whitespace removal over the
  character list.
* Tables are ordered lists of rows; the staging table is created
  `LIKE prod INCLUDING ALL`, hence carries the production primary key on `id`
  and the three non-negativity check constraints, and row inserts enforce them.
* Backend/environment exceptions (lost connection, privileges, ...) that the
  Python runtime can raise at each storage statement are modelled by an
  explicit fault oracle `Faults`; the natural failure modes (constraint
  violations) are raised by the table operations themselves.
-/

namespace FoodSales

/-- A raw spreadsheet row as produced by the external Excel reader, restricted
to the nine expected columns.  `none` models a blank / NaN cell.  The date
cell carries `some d` when `pd.to_datetime` can parse it and `none` when the
cell is blank or unparseable (`errors="coerce"`). -/
structure RawRow where
  id : Option String
  date : Option Nat
  region : Option String
  city : Option String
  category : Option String
  product : Option String
  qty : Option Int
  unitprice : Option ℚ
  totalprice : Option ℚ
  deriving Repr, DecidableEq

/-- The raw tabular input: header names as found in the sheet, plus the data
rows (already keyed by the nine expected columns; when a required header is
missing `read_foodsales` fails before ever looking at the rows). -/
structure Sheet where
  headers : List String
  rows : List RawRow
  deriving Repr, DecidableEq

/-- A coerced record, after the column-by-column casts of `read_foodsales`
(`astype(str)`, `to_datetime(errors="coerce")`, `to_numeric(errors="coerce")`)
and the snake_case rename.  This is also the shape of a database row. -/
structure Row where
  id : String
  date : Option Nat
  region : String
  city : String
  category : String
  product : String
  qty : Option Int
  unitprice : Option ℚ
  totalprice : Option ℚ
  deriving Repr, DecidableEq

/-- Python `str.strip()` (as used by pandas `.str.strip()`): remove leading
and trailing whitespace, modelled over the string's character list. -/
def strip (s : String) : String :=
  ⟨((s.data.dropWhile Char.isWhitespace).reverse.dropWhile
      Char.isWhitespace).reverse⟩

/-- pandas `Series.astype(str)` on an object column: a NaN/blank cell becomes
the literal string `"nan"`, any other cell its string form. -/
def astypeStr : Option String → String
  | none => "nan"
  | some s => s

/-- The column casts of `read_foodsales`, one input row at a time:
`ID → astype(str).str.strip()`, `Date → to_datetime(errors="coerce")`,
the four text columns `→ astype(str)`, `Qty → to_numeric(...).astype(Int64)`,
`UnitPrice`/`TotalPrice → to_numeric(errors="coerce")`. -/
def coerceRow (r : RawRow) : Row where
  id := strip (astypeStr r.id)
  date := r.date
  region := astypeStr r.region
  city := astypeStr r.city
  category := astypeStr r.category
  product := astypeStr r.product
  qty := r.qty
  unitprice := r.unitprice
  totalprice := r.totalprice

/-- The row-admission mask of `read_foodsales`: non-empty (stripped) `ID`,
parsed `Date`, present `TotalPrice`, and `Region`/`Category`/`Product`
non-blank after stripping.  (`City` does not appear in the mask.) -/
def admissionMask (r : Row) : Bool :=
  0 < r.id.length && r.date.isSome && r.totalprice.isSome &&
    strip r.region ≠ "" && strip r.category ≠ "" && strip r.product ≠ ""

/-- The negative-value mask of `read_foodsales`: each of `qty`, `unitprice`,
`totalprice` is either NaN or `≥ 0`. -/
def negMask (r : Row) : Bool :=
  (r.qty.isNone || decide ((0 : Int) ≤ r.qty.getD 0)) &&
    (r.unitprice.isNone || decide ((0 : ℚ) ≤ r.unitprice.getD 0)) &&
    (r.totalprice.isNone || decide ((0 : ℚ) ≤ r.totalprice.getD 0))

/-- The nine required column names of the Excel sheet. -/
def expected : List String :=
  ["ID", "Date", "Region", "City", "Category", "Product", "Qty", "UnitPrice",
    "TotalPrice"]

/-- Errors raised inside the pipeline. -/
inductive Err where
  /-- `ValueError("Missing columns in Excel: ...")`, carrying the missing
  header names. -/
  | missingColumns (missing : List String)
  /-- A Postgres unique-constraint violation (primary key on `id`). -/
  | uniqueViolation
  /-- A Postgres check-constraint violation (`chk_*_nonneg`). -/
  | checkViolation
  /-- An environment/backend exception injected by the fault oracle. -/
  | injected
  deriving Repr, DecidableEq

/-- The rows surviving the admission mask, in input order (the state of the
DataFrame right after `df.loc[mask]` and the rename). -/
def admittedRows (s : Sheet) : List Row :=
  (s.rows.map coerceRow).filter admissionMask

/-- The clean record set: admitted rows that also pass the negative-value
filter. -/
def cleanRows (s : Sheet) : List Row :=
  (admittedRows s).filter negMask

/-- The count the negative-value pass reports (`removed = before - len(df)`
where `before` is measured after the admission mask). -/
def removedCount (s : Sheet) : Nat :=
  (admittedRows s).length - (cleanRows s).length

/-- `read_foodsales`: validate that the nine required columns are present
(raising `ValueError` otherwise), coerce the columns, apply the admission
mask and then the negative-value filter.  Returns the clean record set
together with the removed-row count that the warning reports. -/
def read_foodsales (s : Sheet) : Except Err (List Row × Nat) :=
  if expected.filter (fun c => !decide (c ∈ s.headers)) ≠ [] then
    .error (.missingColumns (expected.filter (fun c => !decide (c ∈ s.headers))))
  else .ok (cleanRows s, removedCount s)

/-- Does a row satisfy the three `chk_*_nonneg` check constraints of the
production (and hence staging) table? -/
def rowNonneg (r : Row) : Bool :=
  (r.qty.isNone || decide ((0 : Int) ≤ r.qty.getD 0)) &&
    (r.unitprice.isNone || decide ((0 : ℚ) ≤ r.unitprice.getD 0)) &&
    (r.totalprice.isNone || decide ((0 : ℚ) ≤ r.totalprice.getD 0))

/-- The database visible to one run: the production table (`none` before
`CREATE TABLE IF NOT EXISTS` has ever run) and the staging table (`none`
when dropped / never created).  Tables are row lists in insertion order. -/
structure DB where
  prod : Option (List Row)
  stage : Option (List Row)
  deriving Repr, DecidableEq

/-- The ids present in a table. -/
def tableIds (t : List Row) : List String :=
  t.map Row.id

/-- Insert one row into a table that carries the primary key on `id` and the
three non-negativity check constraints (both production and staging do:
staging is created `LIKE prod INCLUDING ALL`).  Raises the corresponding
constraint violation when the row conflicts. -/
def insertRow (t : List Row) (r : Row) : Except Err (List Row) :=
  if r.id ∈ tableIds t then .error .uniqueViolation
  else if !rowNonneg r then .error .checkViolation
  else .ok (t ++ [r])

/-- Insert rows one after another (the pandas `to_sql(..., if_exists="append")`
bulk load; chunking only batches the statements and does not change which
rows are attempted, so it is not modelled). -/
def insertAll (t : List Row) : List Row → Except Err (List Row)
  | [] => .ok t
  | r :: rs =>
    match insertRow t r with
    | .error e => .error e
    | .ok t₂ => insertAll t₂ rs

/-- `ensure_schema_and_tables`: `CREATE SCHEMA IF NOT EXISTS`,
`CREATE TABLE IF NOT EXISTS prod`, `CREATE INDEX IF NOT EXISTS` — idempotent
DDL: an absent production table becomes empty, an existing one is untouched. -/
def ensure_schema_and_tables (db : DB) : DB :=
  { db with prod := some (db.prod.getD []) }

/-- `load_stage`: `CREATE TABLE IF NOT EXISTS stage (LIKE prod INCLUDING ALL)`,
`TRUNCATE TABLE stage`, then the bulk insert of the clean record set.  After
the truncation the prior staging content is irrelevant; the insert enforces
staging's copied primary key and check constraints. -/
def load_stage (db : DB) (rows : List Row) : Except Err DB :=
  match insertAll ([] : List Row) rows with
  | .error e => .error e
  | .ok st => .ok { db with stage := some st }

/-- One step of the merge's `INSERT ... SELECT ... ON CONFLICT (id) DO
NOTHING`: a staged row whose `id` already exists in production (including ids
inserted earlier in the same statement) is silently skipped, any other row is
appended; the second component counts the rows actually inserted. -/
def mergeStep (acc : List Row × Nat) (r : Row) : List Row × Nat :=
  if r.id ∈ tableIds acc.1 then acc
  else (acc.1 ++ [r], acc.2 + 1)

/-- `merge_stage_to_prod`: insert every staging row into production with
`ON CONFLICT (id) DO NOTHING`, returning the updated database and the
statement's rowcount (rows actually inserted).  The `WHERE s.id IS NOT NULL`
guard is vacuous in this model: the `id` column of every staged row is a
pandas string (a blank cell was coerced to `"nan"`), never SQL NULL. -/
def merge_stage_to_prod (db : DB) : DB × Nat :=
  let res := (db.stage.getD []).foldl mergeStep (db.prod.getD [], 0)
  ({ db with prod := some res.1 }, res.2)

/-- `DROP TABLE IF EXISTS stage`. -/
def dropStage (db : DB) : DB :=
  { db with stage := none }

/-- The fault oracle: which storage statement (if any) the environment makes
raise in this run — `True` at a position models a backend exception (lost
connection, privilege error, ...) at that statement. -/
structure Faults where
  failEnsure : Bool
  failLoad : Bool
  failMerge : Bool
  failDrop : Bool
  deriving Repr, DecidableEq

/-- The fault-free environment. -/
def noFaults : Faults :=
  ⟨false, false, false, false⟩

/-- The body of the `with eng.begin() as con:` block of `main`: ensure the
schema, load staging, merge into production, drop staging — propagating the
first exception (injected or constraint violation).  Returns the database
state at the end of the block and the merge's inserted-row count. -/
def storageSteps (f : Faults) (rows : List Row) (db : DB) :
    Except Err (DB × Nat) :=
  if f.failEnsure then .error .injected else
  let db₁ := ensure_schema_and_tables db
  if f.failLoad then .error .injected else
  match load_stage db₁ rows with
  | .error e => .error e
  | .ok db₂ =>
    if f.failMerge then .error .injected else
    let res := merge_stage_to_prod db₂
    if f.failDrop then .error .injected else
    .ok (dropStage res.1, res.2)

/-- The observable outcome of one process run: normal completion with the
logged `rows_in` and `rows_inserted` counts, `sys.exit(1)` on a read/clean
failure, `sys.exit(2)` on a storage failure. -/
inductive RunResult where
  | success (rowsIn : Nat) (inserted : Nat)
  | exit1
  | exit2
  deriving Repr, DecidableEq

/-- `main`: read and clean the Excel input (exit code 1 on failure, before
any storage connection exists), then run the storage steps inside one
transaction — `eng.begin()` commits the block's final state on success and
rolls every statement of the block back on an exception (exit code 2), so
the pre-run database is returned unchanged in that case. -/
def main (f : Faults) (s : Sheet) (db : DB) : DB × RunResult :=
  match read_foodsales s with
  | .error _ => (db, .exit1)
  | .ok (rows, _removed) =>
    match storageSteps f rows db with
    | .ok (db₂, n) => (db₂, .success rows.length n)
    | .error _ => (db, .exit2)

/-! ## Concrete inputs used to exercise the pipeline -/

/-- A fully valid raw row with id `A1`. -/
def rrOk : RawRow :=
  ⟨some "A1", some 10, some "North", some "Bangkok", some "Food", some "Rice",
    some 2, some 5, some 10⟩

/-- A valid raw row carrying the same id `A1` as `rrOk` but different other
fields. -/
def rrDup : RawRow :=
  ⟨some "A1", some 11, some "South", some "Chiangmai", some "Food",
    some "Noodle", some 1, some 3, some 3⟩

/-- A raw row that is valid except for a negative quantity. -/
def rrNegQty : RawRow :=
  ⟨some "A2", some 12, some "North", some "Bangkok", some "Food", some "Rice",
    some (-1), some 5, some 10⟩

/-- A raw row that is valid except for an empty region. -/
def rrEmptyRegion : RawRow :=
  ⟨some "A3", some 13, some "", some "Bangkok", some "Food", some "Rice",
    some 1, some 5, some 5⟩

/-- A raw row that is valid in every checked column but has an empty city. -/
def rrEmptyCity : RawRow :=
  ⟨some "A4", some 14, some "North", some "", some "Food", some "Rice",
    some 1, some 5, some 5⟩

/-- A raw row with a blank/NaN `ID` cell and every other column valid. -/
def rrNoId : RawRow :=
  ⟨none, some 15, some "North", some "Bangkok", some "Food", some "Rice",
    some 1, some 5, some 5⟩

/-- A one-row sheet with full headers and the valid row. -/
def sheetOk : Sheet := ⟨expected, [rrOk]⟩

/-- A sheet whose two rows share the id `A1` but differ in other fields. -/
def sheetDup : Sheet := ⟨expected, [rrOk, rrDup]⟩

/-- A sheet with one valid row and one negative-quantity row. -/
def sheetNeg : Sheet := ⟨expected, [rrOk, rrNegQty]⟩

/-- A sheet whose single row has an empty region (an admission-filter drop)
and no negative values. -/
def sheetEmptyRegion : Sheet := ⟨expected, [rrEmptyRegion]⟩

/-- A sheet whose single row has an empty city. -/
def sheetEmptyCity : Sheet := ⟨expected, [rrEmptyCity]⟩

/-- A sheet whose single row has a blank `ID` cell. -/
def sheetNoId : Sheet := ⟨expected, [rrNoId]⟩

/-- A sheet whose headers lack the required `City` column. -/
def sheetMissingCity : Sheet :=
  ⟨["ID", "Date", "Region", "Category", "Product", "Qty", "UnitPrice",
    "TotalPrice"], [rrOk]⟩

/-- A database whose production table exists and is empty, no staging. -/
def dbEmpty : DB := ⟨some [], none⟩

/-- The database state after ingesting `sheetOk` into `dbEmpty`. -/
def dbAfterOk : DB := ⟨some [coerceRow rrOk], none⟩

/-- A fault oracle making the merge statement raise a backend exception. -/
def faultsMerge : Faults := ⟨false, false, true, false⟩

/-! ## Helper lemmas -/

theorem ne_empty_of_length_pos {s : String} (h : 0 < s.length) : s ≠ "" := by
  intro e
  subst e
  exact absurd h (by decide)

theorem length_pos_of_ne_empty {s : String} (h : s ≠ "") : 0 < s.length := by
  cases s with
  | mk l =>
    cases l with
    | nil => exact absurd (by decide) h
    | cons c cs => simp [String.length]

/-- A successful bulk insert appends exactly the attempted rows, in order. -/
theorem insertAll_ok_eq {rows : List Row} :
    ∀ {t t₂ : List Row}, insertAll t rows = .ok t₂ → t₂ = t ++ rows := by
  induction rows with
  | nil =>
    intro t t₂ h
    simp [insertAll] at h
    simp [h]
  | cons r rs ih =>
    intro t t₂ h
    unfold insertAll insertRow at h
    by_cases hc : r.id ∈ tableIds t
    · simp [hc] at h
    · by_cases hn : rowNonneg r
      · simp [hc, hn] at h
        have := ih h
        simp [this]
      · simp [hc, hn] at h

/-- The bulk insert raises a constraint violation whenever the attempted rows
repeat an id among themselves or collide with an id already in the table. -/
theorem insertAll_error_of_dup {rows : List Row} :
    ∀ {t : List Row},
      (¬ (rows.map Row.id).Nodup ∨ ∃ r ∈ rows, r.id ∈ tableIds t) →
      ∃ e, insertAll t rows = .error e := by
  induction rows with
  | nil =>
    intro t h
    rcases h with h | ⟨r, hr, _⟩
    · simp at h
    · exact absurd hr (List.not_mem_nil r)
  | cons r rs ih =>
    intro t h
    unfold insertAll insertRow
    by_cases hc : r.id ∈ tableIds t
    · exact ⟨.uniqueViolation, by simp [hc]⟩
    · by_cases hn : rowNonneg r
      · have hrec : ¬ (rs.map Row.id).Nodup ∨
            ∃ x ∈ rs, x.id ∈ tableIds (t ++ [r]) := by
          rcases h with h | ⟨x, hx, hxt⟩
          · rw [List.map_cons, List.nodup_cons] at h
            push_neg at h
            by_cases hmem : r.id ∈ rs.map Row.id
            · rcases List.mem_map.mp hmem with ⟨x, hx, hxid⟩
              refine Or.inr ⟨x, hx, ?_⟩
              simp [tableIds, hxid]
            · exact Or.inl (h hmem)
          · rcases List.mem_cons.mp hx with rfl | hx
            · exact absurd hxt hc
            · refine Or.inr ⟨x, hx, ?_⟩
              simp [tableIds] at hxt ⊢
              exact Or.inl hxt
        rcases ih hrec with ⟨e, he⟩
        exact ⟨e, by simp [hc, hn, he]⟩
      · exact ⟨.checkViolation, by simp [hc, hn]⟩

/-- The merge fold appends some list of staged rows whose ids were absent
from the initial production table, counting exactly the appended rows. -/
theorem mergeStep_foldl_append (st : List Row) :
    ∀ (p : List Row) (c : Nat),
      ∃ new : List Row,
        (st.foldl mergeStep (p, c)).1 = p ++ new ∧
        (∀ r ∈ new, r ∈ st) ∧
        (∀ r ∈ new, ¬ r.id ∈ tableIds p) ∧
        (st.foldl mergeStep (p, c)).2 = c + new.length := by
  induction st with
  | nil => exact fun p c => ⟨[], by simp⟩
  | cons r rs ih =>
    intro p c
    by_cases hc : r.id ∈ tableIds p
    · rcases ih p c with ⟨new, h1, h2, h3, h4⟩
      refine ⟨new, ?_, fun x hx => List.mem_cons_of_mem r (h2 x hx), h3, ?_⟩
      · simpa [List.foldl_cons, mergeStep, hc] using h1
      · simpa [List.foldl_cons, mergeStep, hc] using h4
    · rcases ih (p ++ [r]) (c + 1) with ⟨new, h1, h2, h3, h4⟩
      refine ⟨r :: new, ?_, ?_, ?_, ?_⟩
      · simpa [List.foldl_cons, mergeStep, hc] using h1
      · intro x hx
        rcases List.mem_cons.mp hx with rfl | hx
        · exact List.mem_cons_self x rs
        · exact List.mem_cons_of_mem r (h2 x hx)
      · intro x hx
        rcases List.mem_cons.mp hx with rfl | hx
        · exact fun hxp => hc hxp
        · intro hxp
          exact h3 x hx (by simp [tableIds] at hxp ⊢; exact Or.inl hxp)
      · have : (rs.foldl mergeStep (p ++ [r], c + 1)).2 = c + 1 + new.length :=
          h4
        simp [List.foldl_cons, mergeStep, hc, this]
        omega

/-- `tableIds` distributes over table append. -/
theorem tableIds_append (t₁ t₂ : List Row) :
    tableIds (t₁ ++ t₂) = tableIds t₁ ++ tableIds t₂ := by
  simp [tableIds]

/-- After the merge fold, every staged row's id is present in production. -/
theorem mergeStep_foldl_absorbs (st : List Row) :
    ∀ (p : List Row) (c : Nat) (r : Row), r ∈ st →
      r.id ∈ tableIds (st.foldl mergeStep (p, c)).1 := by
  induction st with
  | nil => intro p c r hr; exact absurd hr (List.not_mem_nil r)
  | cons x xs ih =>
    intro p c r hr
    rw [List.foldl_cons]
    by_cases hc : x.id ∈ tableIds p
    · rw [show mergeStep (p, c) x = (p, c) from if_pos hc]
      rcases List.mem_cons.mp hr with rfl | hr
      · rcases mergeStep_foldl_append xs p c with ⟨new, h1, -, -, -⟩
        rw [h1, tableIds_append]
        exact List.mem_append_left _ hc
      · exact ih p c r hr
    · rw [show mergeStep (p, c) x = (p ++ [x], c + 1) from if_neg hc]
      rcases List.mem_cons.mp hr with rfl | hr
      · rcases mergeStep_foldl_append xs (p ++ [r]) (c + 1) with
          ⟨new, h1, -, -, -⟩
        rw [h1, tableIds_append, tableIds_append]
        exact List.mem_append_left _
          (List.mem_append_right _ (by simp [tableIds]))
      · exact ih (p ++ [x]) (c + 1) r hr

/-- Merging rows whose ids are all present already changes nothing and
counts zero insertions. -/
theorem mergeStep_foldl_noop (st : List Row) :
    ∀ (p : List Row) (c : Nat), (∀ r ∈ st, r.id ∈ tableIds p) →
      st.foldl mergeStep (p, c) = (p, c) := by
  induction st with
  | nil => intro p c _; rfl
  | cons x xs ih =>
    intro p c h
    have hx : x.id ∈ tableIds p := h x (List.mem_cons_self x xs)
    rw [List.foldl_cons, show mergeStep (p, c) x = (p, c) from if_pos hx]
    exact ih p c fun r hr => h r (List.mem_cons_of_mem x hr)

/-- Closed form of a fault-free storage phase: it is determined by the bulk
insert of the clean rows into the empty (truncated) staging table, followed
by the merge fold into production; the staging table ends dropped. -/
theorem storageSteps_noFaults (rows : List Row) (db : DB) :
    storageSteps noFaults rows db =
      match insertAll [] rows with
      | .error e => .error e
      | .ok st =>
        .ok (⟨some (st.foldl mergeStep (db.prod.getD [], 0)).1, none⟩,
          (st.foldl mergeStep (db.prod.getD [], 0)).2) := by
  unfold storageSteps load_stage
  cases h : insertAll [] rows with
  | error e => simp [noFaults, h]
  | ok st =>
    simp [noFaults, h, ensure_schema_and_tables, merge_stage_to_prod,
      dropStage]

/-- A successful storage phase (under any fault oracle) has the same closed
form: all fault flags were unexercised and the bulk insert succeeded. -/
theorem storageSteps_ok (f : Faults) (rows : List Row) (db db₂ : DB)
    (n : Nat) (h : storageSteps f rows db = .ok (db₂, n)) :
    ∃ st, insertAll [] rows = .ok st ∧
      db₂ = ⟨some (st.foldl mergeStep (db.prod.getD [], 0)).1, none⟩ ∧
      n = (st.foldl mergeStep (db.prod.getD [], 0)).2 := by
  unfold storageSteps load_stage at h
  by_cases h₁ : f.failEnsure
  · simp [h₁] at h
  · by_cases h₂ : f.failLoad
    · simp [h₁, h₂] at h
    · cases hins : insertAll [] rows with
      | error e => simp [h₁, h₂, hins] at h
      | ok st =>
        by_cases h₃ : f.failMerge
        · simp [h₁, h₂, hins, h₃] at h
        · by_cases h₄ : f.failDrop
          · simp [h₁, h₂, hins, h₃, h₄] at h
          · refine ⟨st, rfl, ?_⟩
            simp [h₁, h₂, hins, h₃, h₄, ensure_schema_and_tables,
              merge_stage_to_prod, dropStage] at h
            exact ⟨h.1.symm, h.2.symm⟩

/-- A successful read always returns the clean rows and the negative-pass
removed count. -/
theorem read_foodsales_ok {s : Sheet} {rows : List Row} {removed : Nat}
    (h : read_foodsales s = .ok (rows, removed)) :
    rows = cleanRows s ∧ removed = removedCount s := by
  unfold read_foodsales at h
  split at h
  · simp at h
  · simp only [Except.ok.injEq, Prod.mk.injEq] at h
    exact ⟨h.1.symm, h.2.symm⟩

/-- When every required column is present, the read succeeds. -/
theorem read_foodsales_ok_of_headers {s : Sheet}
    (h : ∀ c ∈ expected, c ∈ s.headers) :
    read_foodsales s = .ok (cleanRows s, removedCount s) := by
  have hm : expected.filter (fun c => !decide (c ∈ s.headers)) = [] := by
    rw [List.filter_eq_nil_iff]
    intro c hc
    simp
    exact h c hc
  unfold read_foodsales
  rw [if_neg (fun hne => hne hm)]

/-- The admission mask implies the six spec-level admission conditions. -/
theorem admission_conds_of_mask {r : Row} (h : admissionMask r = true) :
    r.id ≠ "" ∧ r.date ≠ none ∧ r.totalprice ≠ none ∧
      strip r.region ≠ "" ∧ strip r.category ≠ "" ∧ strip r.product ≠ "" := by
  simp only [admissionMask, Bool.and_eq_true, decide_eq_true_eq] at h
  obtain ⟨⟨⟨⟨⟨h1, h2⟩, h3⟩, h4⟩, h5⟩, h6⟩ := h
  exact ⟨ne_empty_of_length_pos h1, Option.isSome_iff_ne_none.mp h2,
    Option.isSome_iff_ne_none.mp h3, h4, h5, h6⟩

/-- The six spec-level admission conditions imply the admission mask. -/
theorem mask_of_admission_conds {r : Row} (h1 : r.id ≠ "")
    (h2 : r.date ≠ none) (h3 : r.totalprice ≠ none)
    (h4 : strip r.region ≠ "") (h5 : strip r.category ≠ "")
    (h6 : strip r.product ≠ "") : admissionMask r = true := by
  simp only [admissionMask, Bool.and_eq_true, decide_eq_true_eq]
  exact ⟨⟨⟨⟨⟨length_pos_of_ne_empty h1, Option.isSome_iff_ne_none.mpr h2⟩,
    Option.isSome_iff_ne_none.mpr h3⟩, h4⟩, h5⟩, h6⟩

/-- The negative-value mask, read as the three spec-level conditions. -/
theorem negMask_iff {r : Row} :
    negMask r = true ↔
      (r.qty = none ∨ 0 ≤ r.qty.getD 0) ∧
      (r.unitprice = none ∨ (0 : ℚ) ≤ r.unitprice.getD 0) ∧
      (r.totalprice = none ∨ (0 : ℚ) ≤ r.totalprice.getD 0) := by
  simp only [negMask, Bool.and_eq_true, Bool.or_eq_true, decide_eq_true_eq,
    Option.isNone_iff_eq_none]
  tauto

/-- Membership in the clean record set, unfolded to its two filter passes. -/
theorem mem_cleanRows {s : Sheet} {r : Row} :
    r ∈ cleanRows s ↔
      r ∈ s.rows.map coerceRow ∧ admissionMask r = true ∧ negMask r = true := by
  unfold cleanRows admittedRows
  constructor
  · intro h
    rcases List.mem_filter.mp h with ⟨h₂, hneg⟩
    rcases List.mem_filter.mp h₂ with ⟨h₃, hadm⟩
    exact ⟨h₃, hadm, hneg⟩
  · intro ⟨h₁, h₂, h₃⟩
    exact List.mem_filter.mpr ⟨List.mem_filter.mpr ⟨h₁, h₂⟩, h₃⟩

/-! ## Claims -/

/-- C4: for every input whose headers lack at least one of the 9 required
columns, the pipeline raises a schema-mismatch error, exits with code 1, and
performs no storage writes — the failure occurs before any storage work, so
the database is returned exactly as it was. -/
theorem spec_C4_schema_mismatch (f : Faults) (s : Sheet) (db : DB)
    (c : String) (hc : c ∈ expected) (hn : c ∉ s.headers) :
    main f s db = (db, .exit1) := by
  have hmem : c ∈ expected.filter (fun x => !decide (x ∈ s.headers)) :=
    List.mem_filter.mpr ⟨hc, by simp [hn]⟩
  have hread : read_foodsales s = .error
      (.missingColumns (expected.filter (fun x => !decide (x ∈ s.headers)))) := by
    unfold read_foodsales
    rw [if_pos (List.ne_nil_of_mem hmem)]
  unfold main
  rw [hread]

/-- Witness for C4: a sheet lacking the `City` header makes the run exit
with code 1 and leave the database untouched. -/
theorem spec_C4_schema_mismatch_witness :
    main noFaults sheetMissingCity dbEmpty = (dbEmpty, .exit1) :=
  spec_C4_schema_mismatch noFaults sheetMissingCity dbEmpty "City"
    (by decide) (by decide)

/-- C2: if any exception occurs during the storage phase (schema DDL,
staging create/truncate/insert, merge, or drop), the transaction rolls every
effect back: the run exits with code 2 and the database — in particular the
production table — is exactly as it was before the run. -/
theorem spec_C2_atomic_rollback (f : Faults) (s : Sheet) (db : DB)
    (rows : List Row) (removed : Nat) (e : Err)
    (hread : read_foodsales s = .ok (rows, removed))
    (herr : storageSteps f rows db = .error e) :
    main f s db = (db, .exit2) := by
  unfold main
  simp only [hread, herr]

/-- Witness for C2: a backend exception at the merge statement rolls the
whole run back. -/
theorem spec_C2_atomic_rollback_witness :
    main faultsMerge sheetOk dbEmpty = (dbEmpty, .exit2) :=
  spec_C2_atomic_rollback faultsMerge sheetOk dbEmpty [coerceRow rrOk] 0
    .injected rfl rfl

/-- C5: a coerced row is admitted to the clean record set only if its id is
non-empty (after stripping), its date parsed (non-null), its total price is
present, and its region, category and product are non-empty after stripping;
every coerced row failing any of these conditions is dropped. -/
theorem spec_C5_row_admission (s : Sheet) (rows : List Row) (removed : Nat)
    (hread : read_foodsales s = .ok (rows, removed)) :
    (∀ r ∈ rows, r.id ≠ "" ∧ r.date ≠ none ∧ r.totalprice ≠ none ∧
      strip r.region ≠ "" ∧ strip r.category ≠ "" ∧ strip r.product ≠ "") ∧
    (∀ raw ∈ s.rows,
      ¬ ((coerceRow raw).id ≠ "" ∧ (coerceRow raw).date ≠ none ∧
          (coerceRow raw).totalprice ≠ none ∧
          strip (coerceRow raw).region ≠ "" ∧
          strip (coerceRow raw).category ≠ "" ∧
          strip (coerceRow raw).product ≠ "") →
        coerceRow raw ∉ rows) := by
  obtain ⟨hrows, -⟩ := read_foodsales_ok hread
  subst hrows
  refine ⟨fun r hr => admission_conds_of_mask (mem_cleanRows.mp hr).2.1, ?_⟩
  intro raw _ hnot hmem
  exact hnot (admission_conds_of_mask (mem_cleanRows.mp hmem).2.1)

/-- Witness for C5, on the one-row valid sheet. -/
theorem spec_C5_row_admission_witness :
    (∀ r ∈ [coerceRow rrOk], r.id ≠ "" ∧ r.date ≠ none ∧
      r.totalprice ≠ none ∧ strip r.region ≠ "" ∧ strip r.category ≠ "" ∧
      strip r.product ≠ "") ∧
    (∀ raw ∈ sheetOk.rows,
      ¬ ((coerceRow raw).id ≠ "" ∧ (coerceRow raw).date ≠ none ∧
          (coerceRow raw).totalprice ≠ none ∧
          strip (coerceRow raw).region ≠ "" ∧
          strip (coerceRow raw).category ≠ "" ∧
          strip (coerceRow raw).product ≠ "") →
        coerceRow raw ∉ [coerceRow rrOk]) :=
  spec_C5_row_admission sheetOk [coerceRow rrOk] 0 rfl

/-- C6: the negative-value filter is a second, independent pass after
admission: it never aborts the run (a sheet with full headers always reads
successfully), every clean row has its three numeric fields null or
non-negative, every clean row is an unmodified admitted row (dropped
wholesale, never clamped), and every admitted row whose numeric fields are
null or non-negative is kept. -/
theorem spec_C6_negative_filter (s : Sheet)
    (h : ∀ c ∈ expected, c ∈ s.headers) :
    read_foodsales s = .ok (cleanRows s, removedCount s) ∧
    (∀ r ∈ cleanRows s,
      (r.qty = none ∨ 0 ≤ r.qty.getD 0) ∧
      (r.unitprice = none ∨ (0 : ℚ) ≤ r.unitprice.getD 0) ∧
      (r.totalprice = none ∨ (0 : ℚ) ≤ r.totalprice.getD 0)) ∧
    (∀ r ∈ cleanRows s, r ∈ admittedRows s) ∧
    (∀ r ∈ admittedRows s,
      (r.qty = none ∨ 0 ≤ r.qty.getD 0) →
      (r.unitprice = none ∨ (0 : ℚ) ≤ r.unitprice.getD 0) →
      (r.totalprice = none ∨ (0 : ℚ) ≤ r.totalprice.getD 0) →
      r ∈ cleanRows s) := by
  refine ⟨read_foodsales_ok_of_headers h, ?_, ?_, ?_⟩
  · exact fun r hr => negMask_iff.mp (mem_cleanRows.mp hr).2.2
  · exact fun r hr => (List.mem_filter.mp hr).1
  · exact fun r hr h1 h2 h3 =>
      List.mem_filter.mpr ⟨hr, negMask_iff.mpr ⟨h1, h2, h3⟩⟩

/-- Witness for C6, on the sheet with one valid and one negative-qty row. -/
theorem spec_C6_negative_filter_witness :
    read_foodsales sheetNeg = .ok (cleanRows sheetNeg, removedCount sheetNeg) ∧
    (∀ r ∈ cleanRows sheetNeg,
      (r.qty = none ∨ 0 ≤ r.qty.getD 0) ∧
      (r.unitprice = none ∨ (0 : ℚ) ≤ r.unitprice.getD 0) ∧
      (r.totalprice = none ∨ (0 : ℚ) ≤ r.totalprice.getD 0)) ∧
    (∀ r ∈ cleanRows sheetNeg, r ∈ admittedRows sheetNeg) ∧
    (∀ r ∈ admittedRows sheetNeg,
      (r.qty = none ∨ 0 ≤ r.qty.getD 0) →
      (r.unitprice = none ∨ (0 : ℚ) ≤ r.unitprice.getD 0) →
      (r.totalprice = none ∨ (0 : ℚ) ≤ r.totalprice.getD 0) →
      r ∈ cleanRows sheetNeg) :=
  spec_C6_negative_filter sheetNeg (by decide)

/-- Counterexample to C7 as stated: on a sheet whose single row is dropped
for a missing required field (empty region) and has no negative values, the
validator reports 0 removed rows even though 1 row was dropped for a quality
violation — the reported count omits admission-filter drops. -/
theorem spec_C7_counterexample :
    read_foodsales sheetEmptyRegion = .ok ([], 0) ∧
    sheetEmptyRegion.rows.length - (cleanRows sheetEmptyRegion).length = 1 :=
  ⟨rfl, rfl⟩

/-- C7 amended: the removed-row count reported by the validator equals only
the number of admitted rows dropped by the negative-value pass; rows dropped
by the admission filter are not included (the clean row count plus the
reported count adds up to the admitted rows, not the raw input rows). -/
theorem spec_C7_amended (s : Sheet) (rows : List Row) (removed : Nat)
    (hread : read_foodsales s = .ok (rows, removed)) :
    removed = ((admittedRows s).filter (fun r => !negMask r)).length ∧
    rows.length + removed = (admittedRows s).length := by
  obtain ⟨hrows, hrem⟩ := read_foodsales_ok hread
  have hsplit := @List.length_eq_length_filter_add _ (admittedRows s) negMask
  have hclean : (cleanRows s).length =
      ((admittedRows s).filter negMask).length := rfl
  subst hrows
  rw [hrem]
  unfold removedCount
  constructor
  · omega
  · omega

/-- Witness for C7 amended: on the valid-plus-negative sheet the reported
count is 1 and accounts exactly for the negative-value drop. -/
theorem spec_C7_amended_witness :
    (1 : Nat) = ((admittedRows sheetNeg).filter (fun r => !negMask r)).length ∧
    ([coerceRow rrOk] : List Row).length + 1 = (admittedRows sheetNeg).length :=
  spec_C7_amended sheetNeg [coerceRow rrOk] 1 rfl

/-- Counterexample to C3 as stated: on an input whose two rows share id
`A1` but differ in other fields, the pipeline does NOT complete — the
staging bulk insert violates staging's primary key (copied from production
by `LIKE ... INCLUDING ALL`), the transaction rolls back and the run exits
with code 2, with neither row reaching the production table. -/
theorem spec_C3_counterexample :
    (coerceRow rrOk).id = (coerceRow rrDup).id ∧
    rrOk.product ≠ rrDup.product ∧
    main noFaults sheetDup dbEmpty = (dbEmpty, .exit2) :=
  ⟨rfl, by decide, rfl⟩

/-- C3 amended: for every input whose clean rows contain two rows sharing
an id, the staging load raises a uniqueness violation, so the run aborts
with exit code 2 and the database — production in particular — is exactly
as before; neither duplicate reaches production. -/
theorem spec_C3_amended (s : Sheet) (db : DB) (rows : List Row)
    (removed : Nat) (hread : read_foodsales s = .ok (rows, removed))
    (hdup : ¬ (rows.map Row.id).Nodup) :
    main noFaults s db = (db, .exit2) := by
  rcases @insertAll_error_of_dup rows [] (Or.inl hdup) with ⟨e, he⟩
  have herr : storageSteps noFaults rows db = .error e := by
    rw [storageSteps_noFaults, he]
  unfold main
  simp only [hread, herr]

/-- Witness for C3 amended, on the duplicate-id sheet. -/
theorem spec_C3_amended_witness :
    main noFaults sheetDup dbEmpty = (dbEmpty, .exit2) :=
  spec_C3_amended sheetDup dbEmpty [coerceRow rrOk, coerceRow rrDup] 0 rfl
    (by decide)

/-- Counterexample to C8 as stated: a row whose city is empty (and whose
other fields are valid) IS admitted to the clean record set — the admission
mask never consults the city column. -/
theorem spec_C8_counterexample :
    read_foodsales sheetEmptyCity = .ok ([coerceRow rrEmptyCity], 0) ∧
    (coerceRow rrEmptyCity).city = "" :=
  ⟨rfl, rfl⟩

/-- C8 amended: city is not a required field — a coerced row with an empty
city is admitted to the clean record set whenever the id/date/total-price/
region/category/product admission conditions and the negative-value filter
pass. -/
theorem spec_C8_amended (s : Sheet) (raw : RawRow) (rows : List Row)
    (removed : Nat) (hread : read_foodsales s = .ok (rows, removed))
    (hmem : raw ∈ s.rows) (hcity : strip (coerceRow raw).city = "")
    (hid : (coerceRow raw).id ≠ "") (hdate : (coerceRow raw).date ≠ none)
    (htp : (coerceRow raw).totalprice ≠ none)
    (hreg : strip (coerceRow raw).region ≠ "")
    (hcat : strip (coerceRow raw).category ≠ "")
    (hprod : strip (coerceRow raw).product ≠ "")
    (hneg : negMask (coerceRow raw) = true) :
    coerceRow raw ∈ rows := by
  obtain ⟨hrows, -⟩ := read_foodsales_ok hread
  subst hrows
  exact mem_cleanRows.mpr ⟨List.mem_map_of_mem coerceRow hmem,
    mask_of_admission_conds hid hdate htp hreg hcat hprod, hneg⟩

/-- Witness for C8 amended: the empty-city row lands in the clean set. -/
theorem spec_C8_amended_witness :
    coerceRow rrEmptyCity ∈ [coerceRow rrEmptyCity] :=
  spec_C8_amended sheetEmptyCity rrEmptyCity [coerceRow rrEmptyCity] 0 rfl
    (by decide) rfl (by decide) (by decide) (by decide) (by decide)
    (by decide) (by decide) (by decide)

/-- C10: a raw row whose ID cell is blank/NaN is coerced to the literal
non-empty id `"nan"`, so it passes the id check and is admitted to the
clean record set whenever its other required fields are valid — a missing
identifier does not cause the row to be dropped. -/
theorem spec_C10_nan_id (s : Sheet) (raw : RawRow) (rows : List Row)
    (removed : Nat) (hread : read_foodsales s = .ok (rows, removed))
    (hmem : raw ∈ s.rows) (hid : raw.id = none)
    (hdate : raw.date ≠ none) (htp : raw.totalprice ≠ none)
    (hreg : strip (astypeStr raw.region) ≠ "")
    (hcat : strip (astypeStr raw.category) ≠ "")
    (hprod : strip (astypeStr raw.product) ≠ "")
    (hneg : negMask (coerceRow raw) = true) :
    (coerceRow raw).id = "nan" ∧ coerceRow raw ∈ rows := by
  obtain ⟨hrows, -⟩ := read_foodsales_ok hread
  subst hrows
  have hidnan : (coerceRow raw).id = "nan" := by
    show strip (astypeStr raw.id) = "nan"
    rw [hid]
    decide
  refine ⟨hidnan, mem_cleanRows.mpr ⟨List.mem_map_of_mem coerceRow hmem,
    mask_of_admission_conds ?_ hdate htp hreg hcat hprod, hneg⟩⟩
  rw [hidnan]
  decide

/-- Witness for C10: the blank-ID row is admitted with id `"nan"`. -/
theorem spec_C10_nan_id_witness :
    (coerceRow rrNoId).id = "nan" ∧ coerceRow rrNoId ∈ [coerceRow rrNoId] :=
  spec_C10_nan_id sheetNoId rrNoId [coerceRow rrNoId] 0 rfl (by decide) rfl
    (by decide) (by decide) (by decide) (by decide) (by decide) (by decide)

/-- Inversion of a successful run: the read succeeded, the storage phase
committed, and the logged row count is the clean row count. -/
theorem main_success {f : Faults} {s : Sheet} {db db' : DB} {k n : Nat}
    (h : main f s db = (db', .success k n)) :
    ∃ rows removed, read_foodsales s = .ok (rows, removed) ∧
      storageSteps f rows db = .ok (db', n) ∧ k = rows.length := by
  unfold main at h
  cases hread : read_foodsales s with
  | error e =>
    simp only [hread, Prod.mk.injEq] at h
    exact absurd h.2 (by simp)
  | ok pr =>
    obtain ⟨rows, removed⟩ := pr
    simp only [hread] at h
    cases hs : storageSteps f rows db with
    | error e =>
      simp only [hs, Prod.mk.injEq] at h
      exact absurd h.2 (by simp)
    | ok pr2 =>
      obtain ⟨db₂, m⟩ := pr2
      simp only [hs, Prod.mk.injEq, RunResult.success.injEq] at h
      obtain ⟨h1, h2, h3⟩ := h
      exact ⟨rows, removed, rfl, by rw [hs, h1, h3], h2.symm⟩

/-- C1: the pipeline is idempotent — if a run on input `s` succeeds and
commits database state `db'`, then an immediately repeated run with the
identical input succeeds, reports 0 inserted rows, and leaves the database
state (production table included) exactly `db'`. -/
theorem spec_C1_idempotent (s : Sheet) (db db' : DB) (k n : Nat)
    (h : main noFaults s db = (db', .success k n)) :
    main noFaults s db' = (db', .success k 0) := by
  obtain ⟨rows, removed, hread, hs, hk⟩ := main_success h
  rw [storageSteps_noFaults] at hs
  cases hins : insertAll [] rows with
  | error e => rw [hins] at hs; simp at hs
  | ok st =>
    rw [hins] at hs
    simp only [Except.ok.injEq, Prod.mk.injEq] at hs
    obtain ⟨hdb', -⟩ := hs
    have hst : st = rows := by simpa using insertAll_ok_eq hins
    subst hst
    have hgetd : db'.prod.getD [] =
        (st.foldl mergeStep (db.prod.getD [], 0)).1 := by
      rw [← hdb']
      rfl
    have habs : ∀ r ∈ st,
        r.id ∈ tableIds ((st.foldl mergeStep (db.prod.getD [], 0)).1) :=
      fun r hr => mergeStep_foldl_absorbs st (db.prod.getD []) 0 r hr
    have hno : st.foldl mergeStep
        ((st.foldl mergeStep (db.prod.getD [], 0)).1, 0) =
        ((st.foldl mergeStep (db.prod.getD [], 0)).1, 0) :=
      mergeStep_foldl_noop st _ 0 habs
    have h2 : storageSteps noFaults st db' = .ok (db', 0) := by
      rw [storageSteps_noFaults, hins]
      dsimp only
      rw [hgetd, hno]
      dsimp only
      rw [hdb']
    unfold main
    simp only [hread, h2]
    rw [hk]

/-- Witness for C1: rerunning the successful one-row ingest inserts 0 rows
and leaves the database unchanged. -/
theorem spec_C1_idempotent_witness :
    main noFaults sheetOk dbAfterOk = (dbAfterOk, .success 1 0) :=
  spec_C1_idempotent sheetOk dbEmpty dbAfterOk 1 1 rfl

/-- C9: production is append-only with first-write-wins — whatever the run's
outcome (success, validation failure, or storage failure, under any fault
oracle), the production rows existing before the run survive unchanged as a
prefix, and every appended row carries an id absent from the pre-run
production table; no existing row is ever updated or deleted. -/
theorem spec_C9_append_only (f : Faults) (s : Sheet) (db db' : DB)
    (res : RunResult) (p : List Row)
    (hmain : main f s db = (db', res)) (hp : db.prod = some p) :
    ∃ new, db'.prod = some (p ++ new) ∧ ∀ r ∈ new, r.id ∉ tableIds p := by
  unfold main at hmain
  cases hread : read_foodsales s with
  | error e =>
    simp only [hread, Prod.mk.injEq] at hmain
    refine ⟨[], ?_, fun r hr => absurd hr (List.not_mem_nil r)⟩
    rw [← hmain.1, hp, List.append_nil]
  | ok pr =>
    obtain ⟨rows, removed⟩ := pr
    simp only [hread] at hmain
    cases hs : storageSteps f rows db with
    | error e =>
      simp only [hs, Prod.mk.injEq] at hmain
      refine ⟨[], ?_, fun r hr => absurd hr (List.not_mem_nil r)⟩
      rw [← hmain.1, hp, List.append_nil]
    | ok pr2 =>
      obtain ⟨db₂, m⟩ := pr2
      simp only [hs, Prod.mk.injEq] at hmain
      obtain ⟨hdb, -⟩ := hmain
      subst hdb
      rcases storageSteps_ok f rows db db₂ m hs with ⟨st, -, hdb2, -⟩
      rw [hp] at hdb2
      simp only [Option.getD_some] at hdb2
      rcases mergeStep_foldl_append st p 0 with ⟨new, h1, -, h3, -⟩
      refine ⟨new, ?_, h3⟩
      rw [hdb2]
      show some (st.foldl mergeStep (p, 0)).1 = some (p ++ new)
      rw [h1]

/-- Witness for C9: the successful one-row ingest appends only fresh-id
rows to the initially empty production table. -/
theorem spec_C9_append_only_witness :
    ∃ new, dbAfterOk.prod = some ([] ++ new) ∧
      ∀ r ∈ new, r.id ∉ tableIds [] :=
  spec_C9_append_only noFaults sheetOk dbEmpty dbAfterOk (.success 1 1) []
    rfl rfl

end FoodSales
